import Mathlib

/-!
Verification development for the collaboration relay server (server.mjs of the
WebMiliastraNodesEditor collaboration server).  The relay state, the room
stores, and every message handler the claims touch are embedded as executable
Lean definitions; JS Maps are modelled as association lists with insertion
order (keys in a JS Map are unique, so removing every binding of a key models
Map.delete exactly), JS Sets of client ids as ordered duplicate-free lists,
and outbound safeSend calls as an emitted list of socket/message events.
-/

abbrev Socket := Nat

/-- Lookup in an association list, modelling JS Map.get: first matching key. -/
def mget {K V : Type} [DecidableEq K] : List (K × V) → K → Option V
  | [], _ => none
  | (k, v) :: rest, key => if k = key then some v else mget rest key

/-- Test for a key, modelling JS Map.has. -/
def mhas {K V : Type} [DecidableEq K] (m : List (K × V)) (key : K) : Bool :=
  (mget m key).isSome

/-- Update in an association list, modelling JS Map.set: replace the binding in
place when the key is present, append otherwise. -/
def mset {K V : Type} [DecidableEq K] : List (K × V) → K → V → List (K × V)
  | [], key, val => [(key, val)]
  | (k, v) :: rest, key, val =>
    if k = key then (key, val) :: rest else (k, v) :: mset rest key val

/-- Removal from an association list, modelling JS Map.delete.  Keys in a JS
Map are unique, so dropping every binding of the key is observationally the
same as dropping the single one. -/
def mdel {K V : Type} [DecidableEq K] : List (K × V) → K → List (K × V)
  | [], _ => []
  | (k, v) :: rest, key => if k = key then mdel rest key else (k, v) :: mdel rest key

/-- Insertion into a JS Set of strings: append when absent. -/
def sadd (s : List String) (x : String) : List String :=
  if x ∈ s then s else s ++ [x]

/-- Deletion from a JS Set of strings. -/
def sdel (s : List String) (x : String) : List String :=
  s.filter (fun y => y != x)

/-- Test whether the first character list starts the second. -/
def headMatches : List Char → List Char → Bool
  | [], _ => true
  | _ :: _, [] => false
  | a :: as, b :: bs => a == b && headMatches as bs

/-- Substring occurrence on character lists. -/
def hasSub (needle : List Char) : List Char → Bool
  | [] => headMatches needle []
  | c :: rest => headMatches needle (c :: rest) || hasSub needle rest

/-- Substring test, modelling JS String.prototype.includes. -/
def strIncludes (s sub : String) : Bool :=
  hasSub sub.toList s.toList

/-- Character membership test, modelling JS String.prototype.includes on a
single-character needle. -/
def strContains (s : String) (c : Char) : Bool :=
  s.toList.contains c

/-- Splitting of a character list at every separator, modelling JS
String.prototype.split: empty pieces are kept, the empty input gives one
empty piece. -/
def splitChars (p : Char → Bool) : List Char → List (List Char)
  | [] => [[]]
  | c :: rest =>
    if p c then [] :: splitChars p rest
    else
      match splitChars p rest with
      | [] => [[c]]
      | piece :: more => (c :: piece) :: more

/-- String split, modelling JS String.prototype.split. -/
def strSplit (s : String) (p : Char → Bool) : List String :=
  (splitChars p s.toList).map String.mk

/-- Test for a leading marker, modelling JS String.prototype.startsWith. -/
def strStartsWith (s t : String) : Bool :=
  headMatches t.toList s.toList

/-- Drop of the first n characters, modelling JS String.prototype.slice from a
non-negative start. -/
def strDrop (s : String) (n : Nat) : String :=
  String.mk (s.toList.drop n)

/-- Whitespace trim at both ends, modelling JS String.prototype.trim. -/
def strTrim (s : String) : String :=
  String.mk
    (((s.toList.dropWhile (fun c => c.isWhitespace)).reverse.dropWhile
        (fun c => c.isWhitespace)).reverse)

/-- Joining with a separator, modelling JS Array.prototype.join. -/
def strIntercalate (sep : String) : List String → String
  | [] => ""
  | [x] => x
  | x :: rest => x ++ sep ++ strIntercalate sep rest

/-- Profile stored for a registered connection (the clients map of server.mjs). -/
structure ClientProfile where
  clientId : String
  nickname : String
  avatar : Option String
  networkKey : String
deriving DecidableEq

/-- Metadata of a public room as built by the room:create handler. -/
structure PublicMeta where
  roomId : String
  name : String
  requiresPassword : Bool
  permission : String
  visibility : String
  appVersion : String
deriving DecidableEq

/-- Metadata of a LAN room as built by the share:announce handler. -/
structure LanMeta where
  roomId : String
  hostId : String
  projectId : String
  name : String
  appVersion : String
  requiresPassword : Bool
  ownerNickname : String
  permission : String
  visibility : String
  address : String
  updatedAt : Nat
deriving DecidableEq

/-- A public room record. -/
structure PublicRoom where
  hostId : String
  hostSocket : Socket
  meta : PublicMeta
  members : List String
deriving DecidableEq

/-- A LAN room record. -/
structure LanRoom where
  hostId : String
  hostSocket : Socket
  meta : LanMeta
  members : List String
deriving DecidableEq

/-- Entry of the rooms array in a room:list reply. -/
structure RoomSummary where
  roomId : String
  name : String
  requiresPassword : Bool
  permission : String
  visibility : String
  appVersion : String
deriving DecidableEq

/-- Configuration collaborator as read by the relay. -/
structure Config where
  requireApiKey : Bool
  apiKeys : List String
  maxRooms : Nat
deriving DecidableEq

/-- Outbound messages the relay can emit through safeSend. -/
inductive OutMsg where
  | shareList (shares : List LanMeta)
  | roomClosed (roomId : String)
  | roomMemberLeft (roomId : String) (clientId : String)
  | roomError (reason : String) (message : String)
  | roomCreated (roomId : String)
  | roomList (rooms : List RoomSummary) (query : String)
  | joinApproved (roomId : String) (hostId : String) (permission : String)
  | joinDenied (roomId : String) (reason : String)
  | roomMessage (roomId : String) (payload : String)
deriving DecidableEq

/-- One safeSend call: destination socket and the message sent. -/
abbrev Event := Socket × OutMsg

/-- The relay's mutable module state: clients, clientsById, networkSockets,
lanRoomsByNetwork and publicRooms of server.mjs. -/
structure ServerState where
  clients : List (Socket × ClientProfile)
  clientsById : List (String × Socket)
  networkSockets : List (String × List Socket)
  lanRoomsByNetwork : List (String × List (String × LanRoom))
  publicRooms : List (String × PublicRoom)
deriving DecidableEq

def ROOM_ID_LENGTH : Nat := 16

def ROOM_ID_ATTEMPTS : Nat := 8

/-- Translation of normalizeAddress: strip the IPv4-mapped IPv6 marker. -/
def normalizeAddress (address : String) : String :=
  if address = "" then ""
  else if strStartsWith address "::ffff:" then strDrop address 7
  else address

/-- Translation of networkKeyFromAddress. -/
def networkKeyFromAddress (address : String) : String :=
  if address = "" then "unknown"
  else
    let normalized := normalizeAddress address
    if strContains normalized ':' then
      let parts := (strSplit normalized (fun c => c == ':')).filter (fun p => p != "")
      let joined := strIntercalate ":" (parts.take 4)
      if joined = "" then normalized else joined
    else
      match strSplit normalized (fun c => c == '.') with
      | [a, b, c, _d] => a ++ "." ++ b ++ "." ++ c
      | _ => normalized

/-- Translation of getLanShareList. -/
def getLanShareList (st : ServerState) (networkKey : String) : List LanMeta :=
  match mget st.lanRoomsByNetwork networkKey with
  | none => []
  | some map => map.map (fun p => p.2.meta)

/-- Translation of broadcastShareList: one share:list message per socket of the
network group. -/
def broadcastShareList (st : ServerState) (networkKey : String) : List Event :=
  match mget st.networkSockets networkKey with
  | none => []
  | some sockets => sockets.map (fun s => (s, OutMsg.shareList (getLanShareList st networkKey)))

/-- Translation of removePublicRoom. -/
def removePublicRoom (st : ServerState) (roomId : String) : ServerState × List Event :=
  match mget st.publicRooms roomId with
  | none => (st, [])
  | some room =>
    let events := room.members.filterMap (fun memberId =>
      (mget st.clientsById memberId).map (fun sock => (sock, OutMsg.roomClosed roomId)))
    ({ st with publicRooms := mdel st.publicRooms roomId }, events)

/-- Translation of removeLanRoom: notify registered members, delete the room,
then broadcast the updated share list of that network key. -/
def removeLanRoom (st : ServerState) (roomId networkKey : String) : ServerState × List Event :=
  match mget st.lanRoomsByNetwork networkKey with
  | none => (st, [])
  | some map =>
    match mget map roomId with
    | none => (st, [])
    | some room =>
      let closedEvents := room.members.filterMap (fun memberId =>
        (mget st.clientsById memberId).map (fun sock => (sock, OutMsg.roomClosed roomId)))
      let st' := { st with
        lanRoomsByNetwork := mset st.lanRoomsByNetwork networkKey (mdel map roomId) }
      (st', closedEvents ++ broadcastShareList st' networkKey)

/-- Result of findRoom: a public or a LAN room. -/
inductive Resolved where
  | pub (room : PublicRoom)
  | lan (room : LanRoom)
deriving DecidableEq

def Resolved.hostSocket : Resolved → Socket
  | .pub room => room.hostSocket
  | .lan room => room.hostSocket

def Resolved.hostId : Resolved → String
  | .pub room => room.hostId
  | .lan room => room.hostId

def Resolved.members : Resolved → List String
  | .pub room => room.members
  | .lan room => room.members

/-- Translation of findLanRoom. -/
def findLanRoom (st : ServerState) (roomId networkKey : String) : Option LanRoom :=
  match mget st.lanRoomsByNetwork networkKey with
  | none => none
  | some map => mget map roomId

/-- Translation of findRoom: public rooms first, then LAN rooms of the given
network key. -/
def findRoom (st : ServerState) (roomId networkKey : String) : Option Resolved :=
  match mget st.publicRooms roomId with
  | some room => some (Resolved.pub room)
  | none =>
    match findLanRoom st roomId networkKey with
    | some room => some (Resolved.lan room)
    | none => none

/-- Functional write-back of the in-place mutation of the member set of a room
resolved by findRoom: a public room lives in publicRooms under its id, a LAN
room in the inner map of its network key. -/
def writeMembers (st : ServerState) (roomId networkKey : String) (r : Resolved)
    (ms : List String) : ServerState :=
  match r with
  | .pub room => { st with publicRooms := mset st.publicRooms roomId { room with members := ms } }
  | .lan room =>
    match mget st.lanRoomsByNetwork networkKey with
    | none => st
    | some map =>
      { st with lanRoomsByNetwork :=
          (mset st.lanRoomsByNetwork networkKey (mset map roomId { room with members := ms })) }

/-- Translation of handleMemberLeave, acting on a room resolved by findRoom. -/
def handleMemberLeave (st : ServerState) (roomId networkKey clientId : String)
    (r : Resolved) : ServerState × List Event :=
  if clientId ∈ r.members then
    (writeMembers st roomId networkKey r (sdel r.members clientId),
     [(r.hostSocket, OutMsg.roomMemberLeft roomId clientId)])
  else (st, [])

/-- Translation of findLanRoomsByHostSocket: pairs of roomId and networkKey. -/
def findLanRoomsByHostSocket (st : ServerState) (sock : Socket) : List (String × String) :=
  (st.lanRoomsByNetwork.map (fun q =>
    q.2.filterMap (fun p =>
      if p.2.hostSocket = sock then some (p.1, q.1) else none))).flatten

/-- Translation of findPublicRoomsByHostSocket. -/
def findPublicRoomsByHostSocket (st : ServerState) (sock : Socket) : List String :=
  st.publicRooms.filterMap (fun p => if p.2.hostSocket = sock then some p.1 else none)

/-- Reference to a room listed by findRoomsByMember. -/
inductive MemberRoomRef where
  | pub (roomId : String)
  | lan (roomId : String) (networkKey : String)
deriving DecidableEq

def MemberRoomRef.roomId : MemberRoomRef → String
  | .pub r => r
  | .lan r _ => r

/-- Translation of findRoomsByMember: public rooms first, then every LAN room
of every network key. -/
def findRoomsByMember (st : ServerState) (clientId : String) : List MemberRoomRef :=
  (st.publicRooms.filterMap (fun p =>
    if clientId ∈ p.2.members then some (MemberRoomRef.pub p.1) else none))
  ++ (st.lanRoomsByNetwork.map (fun q =>
        q.2.filterMap (fun p =>
          if clientId ∈ p.2.members then some (MemberRoomRef.lan p.1 q.1) else none))).flatten

/-- Digit string built from one crypto.randomBytes draw: each byte maps to a
decimal digit via modulo 10. -/
def digitsOfBytes (bytes : List Nat) : String :=
  String.join (bytes.map (fun b => toString (b % 10)))

/-- Fallback room id: decimal representation of the timestamp, last 16
characters, left padded with zeros to 16. -/
def timestampFallback (now : Nat) : String :=
  let s := toString now
  let sliced := String.mk (s.toList.drop (s.toList.length - ROOM_ID_LENGTH))
  String.mk (List.replicate (ROOM_ID_LENGTH - sliced.toList.length) '0' ++ sliced.toList)

/-- Attempt loop of generateRoomId over the pending random draws. -/
def generateRoomIdAux (publicRooms : List (String × PublicRoom)) (now : Nat) :
    List (List Nat) → String
  | [] => timestampFallback now
  | bytes :: rest =>
    let candidate := digitsOfBytes bytes
    if mhas publicRooms candidate then generateRoomIdAux publicRooms now rest
    else candidate

/-- Translation of generateRoomId, made deterministic by passing the stream of
crypto.randomBytes draws and the current timestamp as inputs: up to 8 draws are
tried against the live public rooms, then the timestamp fallback is used. -/
def generateRoomId (publicRooms : List (String × PublicRoom)) (draws : List (List Nat))
    (now : Nat) : String :=
  generateRoomIdAux publicRooms now (draws.take ROOM_ID_ATTEMPTS)

/-- Incoming fields of a room:create message after the JS string coercions:
apiKey, permission and visibility are none when absent or not a string. -/
structure RoomCreateMsg where
  clientId : String
  apiKey : Option String
  name : String
  requiresPassword : Bool
  permission : Option String
  visibility : Option String
  appVersion : String
deriving DecidableEq

/-- Supplied api key of a room:create message: trimmed when a string was sent,
empty otherwise. -/
def suppliedApiKey (msg : RoomCreateMsg) : String :=
  match msg.apiKey with
  | some s => strTrim s
  | none => ""

/-- Translation of the room:create handler. -/
def handleRoomCreate (cfg : Config) (st : ServerState) (sender : Socket)
    (msg : RoomCreateMsg) (draws : List (List Nat)) (now : Nat) :
    ServerState × List Event :=
  match mget st.clients sender with
  | none => (st, [])
  | some record =>
    if record.clientId ≠ msg.clientId then (st, [])
    else if cfg.requireApiKey ∧
        (suppliedApiKey msg = "" ∨ suppliedApiKey msg ∉ cfg.apiKeys) then
      (st, [(sender, OutMsg.roomError "api_key_required" "API key required")])
    else if 0 < cfg.maxRooms ∧ cfg.maxRooms ≤ st.publicRooms.length then
      (st, [(sender, OutMsg.roomError "room_limit" "Room limit reached")])
    else
      let roomId := generateRoomId st.publicRooms draws now
      let permission := if msg.permission = some "viewer" then "viewer" else "editor"
      let visibility := if msg.visibility = some "private" then "private" else "public"
      let meta : PublicMeta :=
        { roomId := roomId, name := msg.name, requiresPassword := msg.requiresPassword,
          permission := permission, visibility := visibility, appVersion := msg.appVersion }
      ({ st with publicRooms :=
          (mset st.publicRooms roomId
            { hostId := msg.clientId, hostSocket := sender, meta := meta, members := [] }) },
       [(sender, OutMsg.roomCreated roomId)])

/-- Projection of a public room to its room:list summary. -/
def summaryOf (room : PublicRoom) : RoomSummary :=
  { roomId := room.meta.roomId, name := room.meta.name,
    requiresPassword := room.meta.requiresPassword, permission := room.meta.permission,
    visibility := room.meta.visibility, appVersion := room.meta.appVersion }

/-- Filter predicate of the room:list handler. -/
def roomListFilter (query : String) (room : PublicRoom) : Bool :=
  if query = "" then room.meta.visibility != "private"
  else
    let matched := strIncludes room.meta.roomId query || room.meta.roomId == query
    if !matched then false
    else if room.meta.visibility != "private" then true
    else room.meta.roomId == query

/-- Translation of the room:list handler; rawQuery is none when the query field
was absent or not a string. -/
def handleRoomList (st : ServerState) (sender : Socket) (rawQuery : Option String) :
    List Event :=
  let query := match rawQuery with | some q => strTrim q | none => ""
  let rooms :=
    ((st.publicRooms.map (fun p => p.2)).filter (roomListFilter query)).map summaryOf
  [(sender, OutMsg.roomList rooms query)]

/-- LAN branch of the share:remove handler. -/
def shareRemoveLanBranch (st : ServerState) (sender : Socket) (networkKey roomId : String) :
    ServerState × List Event :=
  match findLanRoom st roomId networkKey with
  | some lanRoom =>
    if lanRoom.hostSocket = sender then removeLanRoom st roomId networkKey else (st, [])
  | none => (st, [])

/-- Translation of the share:remove handler: a public room with that id hosted
by the sender is removed first; otherwise the LAN room of the sender's network
key is removed when the sender hosts it. -/
def handleShareRemove (st : ServerState) (sender : Socket) (networkKey roomId : String) :
    ServerState × List Event :=
  if roomId = "" then (st, [])
  else
    match mget st.publicRooms roomId with
    | some publicRoom =>
      if publicRoom.hostSocket = sender then removePublicRoom st roomId
      else shareRemoveLanBranch st sender networkKey roomId
    | none => shareRemoveLanBranch st sender networkKey roomId

/-- Translation of the join:approve handler. -/
def handleJoinApprove (st : ServerState) (sender : Socket) (networkKey : String)
    (roomId clientId : String) (permission : Option String) : ServerState × List Event :=
  if roomId = "" ∨ clientId = "" then (st, [])
  else
    match findRoom st roomId networkKey with
    | none => (st, [])
    | some r =>
      if r.hostSocket ≠ sender then (st, [])
      else
        let st' := writeMembers st roomId networkKey r (sadd r.members clientId)
        match mget st.clientsById clientId with
        | some memberSocket =>
          (st', [(memberSocket, OutMsg.joinApproved roomId r.hostId (permission.getD "editor"))])
        | none => (st', [])

/-- Translation of the room:message handler; targetId is none when the field
was absent or not a string, and an empty string is falsy in the JS truthiness
test, so it broadcasts. -/
def handleRoomMessage (st : ServerState) (sender : Socket) (networkKey roomId : String)
    (targetId : Option String) (payload : String) : List Event :=
  if roomId = "" then []
  else
    match findRoom st roomId networkKey with
    | none => []
    | some r =>
      if r.hostSocket ≠ sender then []
      else
        match (match targetId with
               | some t => if t = "" then none else some t
               | none => none) with
        | some tid =>
          match mget st.clientsById tid with
          | some targetSocket => [(targetSocket, OutMsg.roomMessage roomId payload)]
          | none => []
        | none =>
          r.members.filterMap (fun memberId =>
            (mget st.clientsById memberId).map
              (fun sock => (sock, OutMsg.roomMessage roomId payload)))

/-- Translation of the room:leave handler: the sending socket is never
consulted. -/
def handleRoomLeave (st : ServerState) (_sender : Socket) (networkKey roomId clientId : String) :
    ServerState × List Event :=
  if roomId = "" ∨ clientId = "" then (st, [])
  else
    match findRoom st roomId networkKey with
    | none => (st, [])
    | some r => handleMemberLeave st roomId networkKey clientId r

/-- Translation of the room:close handler. -/
def handleRoomClose (st : ServerState) (sender : Socket) (networkKey roomId : String) :
    ServerState × List Event :=
  if roomId = "" then (st, [])
  else
    match findRoom st roomId networkKey with
    | none => (st, [])
    | some r =>
      if r.hostSocket ≠ sender then (st, [])
      else
        match r with
        | .pub _ => removePublicRoom st roomId
        | .lan _ => removeLanRoom st roomId networkKey

/-- Membership cleanup loop of the close handler: each entry found by
findRoomsByMember is re-resolved through findRoom with the closing
connection's own network key. -/
def closeMemberCleanup (st : ServerState) (networkKey clientId : String)
    (entries : List MemberRoomRef) : ServerState × List Event :=
  entries.foldl
    (fun acc entry =>
      match findRoom acc.1 entry.roomId networkKey with
      | none => acc
      | some r =>
        let step := handleMemberLeave acc.1 entry.roomId networkKey clientId r
        (step.1, acc.2 ++ step.2))
    (st, [])

/-- Translation of the connection-close handler of server.mjs. -/
def handleClose (st : ServerState) (sock : Socket) (networkKey : String) :
    ServerState × List Event :=
  let step1 : ServerState × List Event :=
    match mget st.clients sock with
    | none => (st, [])
    | some record =>
      let stA := { st with clients := mdel st.clients sock }
      let stB :=
        if mget stA.clientsById record.clientId = some sock then
          { stA with clientsById := mdel stA.clientsById record.clientId }
        else stA
      closeMemberCleanup stB networkKey record.clientId (findRoomsByMember stB record.clientId)
  let step2 :=
    (findLanRoomsByHostSocket step1.1 sock).foldl
      (fun acc p =>
        let r := removeLanRoom acc.1 p.1 p.2
        (r.1, acc.2 ++ r.2))
      step1
  let step3 :=
    (findPublicRoomsByHostSocket step2.1 sock).foldl
      (fun acc roomId =>
        let r := removePublicRoom acc.1 roomId
        (r.1, acc.2 ++ r.2))
      step2
  let st4 :=
    match mget step3.1.networkSockets networkKey with
    | none => step3.1
    | some sockSet =>
      let pruned := sockSet.filter (fun s => s != sock)
      if pruned = [] then
        { step3.1 with networkSockets := mdel step3.1.networkSockets networkKey }
      else
        { step3.1 with networkSockets := mset step3.1.networkSockets networkKey pruned }
  (st4, step3.2)

theorem mget_mset_self {K V : Type} [DecidableEq K] (m : List (K × V)) (k : K) (v : V) :
    mget (mset m k v) k = some v := by
  induction m with
  | nil => simp [mset, mget]
  | cons p rest ih =>
    obtain ⟨a, b⟩ := p
    by_cases h : a = k
    · subst h; simp [mset, mget]
    · simp [mset, mget, h, ih]

theorem mget_mset_ne {K V : Type} [DecidableEq K] (m : List (K × V)) (k k' : K) (v : V)
    (h : k' ≠ k) : mget (mset m k v) k' = mget m k' := by
  have hne : ¬k = k' := fun hk => h hk.symm
  induction m with
  | nil => simp [mset, mget, hne]
  | cons p rest ih =>
    obtain ⟨a, b⟩ := p
    by_cases ha : a = k
    · subst ha; simp [mset, mget, hne]
    · simp only [mset, if_neg ha, mget, ih]

theorem mget_mdel_self {K V : Type} [DecidableEq K] (m : List (K × V)) (k : K) :
    mget (mdel m k) k = none := by
  induction m with
  | nil => simp [mdel, mget]
  | cons p rest ih =>
    obtain ⟨a, b⟩ := p
    by_cases h : a = k
    · simp [mdel, h, ih]
    · simp [mdel, mget, h, ih]

theorem mget_mdel_ne {K V : Type} [DecidableEq K] (m : List (K × V)) (k k' : K)
    (h : k' ≠ k) : mget (mdel m k) k' = mget m k' := by
  have hne : ¬k = k' := fun hk => h hk.symm
  induction m with
  | nil => simp [mdel, mget]
  | cons p rest ih =>
    obtain ⟨a, b⟩ := p
    by_cases ha : a = k
    · subst ha; simp [mdel, mget, hne, ih]
    · simp only [mdel, if_neg ha, mget, ih]

theorem mem_sdel {s : List String} {x y : String} :
    x ∈ sdel s y ↔ x ∈ s ∧ x ≠ y := by
  simp [sdel, List.mem_filter]

theorem not_mem_sdel (s : List String) (x : String) : x ∉ sdel s x := by
  simp [mem_sdel]

theorem findRoom_pub_inv (st : ServerState) (roomId nk : String) (room : PublicRoom)
    (h : findRoom st roomId nk = some (Resolved.pub room)) :
    mget st.publicRooms roomId = some room := by
  unfold findRoom at h
  cases hp : mget st.publicRooms roomId with
  | some r' => rw [hp] at h; simp at h; rw [h]
  | none =>
    rw [hp] at h
    cases hl : findLanRoom st roomId nk with
    | some lr => rw [hl] at h; simp at h
    | none => rw [hl] at h; simp at h

theorem findRoom_lan_inv (st : ServerState) (roomId nk : String) (room : LanRoom)
    (h : findRoom st roomId nk = some (Resolved.lan room)) :
    mget st.publicRooms roomId = none ∧ findLanRoom st roomId nk = some room := by
  unfold findRoom at h
  cases hp : mget st.publicRooms roomId with
  | some r' => rw [hp] at h; simp at h
  | none =>
    rw [hp] at h
    cases hl : findLanRoom st roomId nk with
    | some lr => rw [hl] at h; simp at h; exact ⟨rfl, by rw [h]⟩
    | none => rw [hl] at h; simp at h

theorem findLanRoom_inv (st : ServerState) (roomId nk : String) (room : LanRoom)
    (h : findLanRoom st roomId nk = some room) :
    ∃ map, mget st.lanRoomsByNetwork nk = some map ∧ mget map roomId = some room := by
  unfold findLanRoom at h
  cases hm : mget st.lanRoomsByNetwork nk with
  | some map => rw [hm] at h; exact ⟨map, rfl, h⟩
  | none => rw [hm] at h; cases h

/-- Empty relay state, as at server start. -/
def emptyState : ServerState :=
  { clients := [], clientsById := [], networkSockets := [], lanRoomsByNetwork := [],
    publicRooms := [] }

/-- Public metadata fixture. -/
def pubMetaFx (rid vis : String) : PublicMeta :=
  { roomId := rid, name := "", requiresPassword := false, permission := "editor",
    visibility := vis, appVersion := "" }

/-- LAN metadata fixture. -/
def lanMetaFx (rid : String) : LanMeta :=
  { roomId := rid, hostId := "h", projectId := "", name := "", appVersion := "",
    requiresPassword := false, ownerNickname := "", permission := "editor",
    visibility := "public", address := "", updatedAt := 0 }

/-- C8 counterexample input: the claim expects the key for an unparseable
address to be the literal string unknown. -/
theorem networkKey_garbage_cex : networkKeyFromAddress "garbage" ≠ "unknown" := by decide

/-- C8 (amended): an empty address yields the key unknown, but a non-empty
address with no colon and without exactly four dot segments falls back to the
normalized address itself, not to unknown. -/
theorem networkKey_unparseable_fallback (a : String) (h0 : a ≠ "")
    (h1 : strContains (normalizeAddress a) ':' = false)
    (h2 : (strSplit (normalizeAddress a) (fun c => c == '.')).length ≠ 4) :
    networkKeyFromAddress "" = "unknown" ∧
    networkKeyFromAddress a = normalizeAddress a := by
  refine ⟨by decide, ?_⟩
  simp only [networkKeyFromAddress]
  rw [if_neg h0]
  simp only [h1, Bool.false_eq_true, if_false]
  split
  · rename_i x y z w heq
    rw [heq] at h2
    simp at h2
  · rfl

/-- Witness for C8: the concrete address garbage maps to itself. -/
theorem networkKey_unparseable_fallback_witness :
    networkKeyFromAddress "" = "unknown" ∧
    networkKeyFromAddress "garbage" = normalizeAddress "garbage" :=
  networkKey_unparseable_fallback "garbage" (by decide) (by decide) (by decide)

/-- C5: a join:approve message that does not arrive on the resolved room's
host connection, including when no room resolves at all, changes no state and
sends nothing. -/
theorem joinApprove_nonHost_noop (st : ServerState) (sender : Socket)
    (nk roomId clientId : String) (perm : Option String)
    (h : ∀ r, findRoom st roomId nk = some r → r.hostSocket ≠ sender) :
    handleJoinApprove st sender nk roomId clientId perm = (st, []) := by
  unfold handleJoinApprove
  by_cases he : roomId = "" ∨ clientId = ""
  · rw [if_pos he]
  · rw [if_neg he]
    cases hf : findRoom st roomId nk with
    | none => rfl
    | some r => simp [h r hf]

/-- Fixture room for the C5 witness: public room hosted by socket 3. -/
def roomC5 : PublicRoom :=
  { hostId := "h", hostSocket := 3, meta := pubMetaFx "r" "public", members := [] }

/-- Fixture state for the C5 witness. -/
def stC5 : ServerState :=
  { clients := [], clientsById := [], networkSockets := [], lanRoomsByNetwork := [],
    publicRooms := [("r", roomC5)] }

/-- Witness for C5: a join:approve from socket 0, which is not the host of the
resolved room, is a complete no-op. -/
theorem joinApprove_nonHost_noop_witness :
    handleJoinApprove stC5 0 "nk" "r" "b" none = (stC5, []) :=
  joinApprove_nonHost_noop stC5 0 "nk" "r" "b" none (by
    intro r hr
    have h5 : findRoom stC5 "r" "nk" = some (Resolved.pub roomC5) := rfl
    rw [h5] at hr
    injection hr with hr2
    rw [← hr2]
    decide)

/-- C9: any connection, registered or not, member or not, can evict any member
of any room that resolves for the sender's network key: the member is removed
and the host alone is notified with room:member-left. -/
theorem roomLeave_anySender (st : ServerState) (sender : Socket)
    (nk roomId clientId : String) (hrid : roomId ≠ "") (hcid : clientId ≠ "")
    (r : Resolved) (hres : findRoom st roomId nk = some r)
    (hmem : clientId ∈ r.members) :
    (handleRoomLeave st sender nk roomId clientId).2 =
      [(r.hostSocket, OutMsg.roomMemberLeft roomId clientId)] ∧
    ∃ r', findRoom (handleRoomLeave st sender nk roomId clientId).1 roomId nk = some r' ∧
      clientId ∉ r'.members := by
  have hne : ¬(roomId = "" ∨ clientId = "") := by
    rintro (h | h) <;> [exact hrid h; exact hcid h]
  unfold handleRoomLeave
  rw [if_neg hne]
  simp only [hres]
  unfold handleMemberLeave
  rw [if_pos hmem]
  refine ⟨rfl, ?_⟩
  cases r with
  | pub room =>
    have hp := findRoom_pub_inv st roomId nk room hres
    refine ⟨Resolved.pub { room with members := sdel room.members clientId }, ?_, ?_⟩
    · unfold writeMembers findRoom
      simp [mget_mset_self, Resolved.members]
    · exact not_mem_sdel _ _
  | lan room =>
    obtain ⟨hp, hl⟩ := findRoom_lan_inv st roomId nk room hres
    obtain ⟨map, hmap, hroom⟩ := findLanRoom_inv st roomId nk room hl
    refine ⟨Resolved.lan { room with members := sdel room.members clientId }, ?_, ?_⟩
    · unfold writeMembers
      rw [hmap]
      unfold findRoom findLanRoom
      simp [hp, mget_mset_self, Resolved.members]
    · exact not_mem_sdel _ _

/-- Fixture room for the C9 witness: public room hosted by socket 0 with the
single member m. -/
def roomC9 : PublicRoom :=
  { hostId := "h", hostSocket := 0, meta := pubMetaFx "r" "public", members := ["m"] }

/-- Fixture state for the C9 witness: socket 7, the sender, is unregistered
and unrelated to the room. -/
def stC9 : ServerState :=
  { clients := [], clientsById := [], networkSockets := [], lanRoomsByNetwork := [],
    publicRooms := [("r", roomC9)] }

/-- Witness for C9: the unregistered stranger socket 7 evicts member m. -/
theorem roomLeave_anySender_witness :
    (handleRoomLeave stC9 7 "nk" "r" "m").2 = [(0, OutMsg.roomMemberLeft "r" "m")] ∧
    ∃ r', findRoom (handleRoomLeave stC9 7 "nk" "r" "m").1 "r" "nk" = some r' ∧
      "m" ∉ r'.members :=
  roomLeave_anySender stC9 7 "nk" "r" "m" (by decide) (by decide)
    (Resolved.pub roomC9) rfl (by decide)

/-- C10: removing a LAN room that exists under its network key emits
room:closed to the registered connection of every member of that room, and
every such notification precedes every share:list broadcast message, which
carries the share list of the post-removal state of that network key. -/
theorem removeLanRoom_notifyOrder (st : ServerState) (roomId nk : String)
    (map : List (String × LanRoom)) (room : LanRoom)
    (hmap : mget st.lanRoomsByNetwork nk = some map)
    (hroom : mget map roomId = some room) :
    ∃ pre post,
      (removeLanRoom st roomId nk).2 = pre ++ post ∧
      (∀ m ∈ room.members, ∀ s, mget st.clientsById m = some s →
        (s, OutMsg.roomClosed roomId) ∈ pre) ∧
      (∀ e ∈ pre, e.2 = OutMsg.roomClosed roomId) ∧
      (∀ e ∈ post,
        e.2 = OutMsg.shareList (getLanShareList (removeLanRoom st roomId nk).1 nk)) := by
  refine ⟨room.members.filterMap (fun memberId =>
      (mget st.clientsById memberId).map (fun sock => (sock, OutMsg.roomClosed roomId))),
    broadcastShareList
      { st with lanRoomsByNetwork := (mset st.lanRoomsByNetwork nk (mdel map roomId)) } nk,
    ?_, ?_, ?_, ?_⟩
  · simp only [removeLanRoom, hmap, hroom]
  · intro m hm s hs
    exact List.mem_filterMap.mpr ⟨m, hm, by rw [hs]; rfl⟩
  · intro e he
    obtain ⟨m, hm, hf⟩ := List.mem_filterMap.mp he
    cases hmg : mget st.clientsById m with
    | none => rw [hmg] at hf; cases hf
    | some s =>
      rw [hmg] at hf
      obtain rfl : (s, OutMsg.roomClosed roomId) = e := by simpa using hf
      rfl
  · intro e he
    simp only [removeLanRoom, hmap, hroom]
    simp only [broadcastShareList] at he
    cases hns : mget st.networkSockets nk with
    | none =>
      rw [hns] at he
      cases he
    | some socks =>
      rw [hns] at he
      obtain ⟨s, hsmem, rfl⟩ := List.mem_map.mp he
      rfl

/-- Fixture LAN room for the C10 witness. -/
def lanRoomC10 : LanRoom :=
  { hostId := "h", hostSocket := 5, meta := lanMetaFx "r1", members := ["c"] }

/-- Fixture state for the C10 witness: member c is registered on socket 2 and
the network group of netB holds sockets 5 and 2. -/
def stC10 : ServerState :=
  { clients := [], clientsById := [("c", 2)], networkSockets := [("netB", [5, 2])],
    lanRoomsByNetwork := [("netB", [("r1", lanRoomC10)])], publicRooms := [] }

/-- Witness for C10 at the concrete fixture. -/
theorem removeLanRoom_notifyOrder_witness :
    ∃ pre post,
      (removeLanRoom stC10 "r1" "netB").2 = pre ++ post ∧
      (∀ m ∈ lanRoomC10.members, ∀ s, mget stC10.clientsById m = some s →
        (s, OutMsg.roomClosed "r1") ∈ pre) ∧
      (∀ e ∈ pre, e.2 = OutMsg.roomClosed "r1") ∧
      (∀ e ∈ post,
        e.2 = OutMsg.shareList (getLanShareList (removeLanRoom stC10 "r1" "netB").1 "netB")) :=
  removeLanRoom_notifyOrder stC10 "r1" "netB" [("r1", lanRoomC10)] lanRoomC10 rfl rfl

/-- Fixture LAN room for the C2 failing input, stored under network key netB
while its member c closes a connection whose network key is netA. -/
def lanRoomC2 : LanRoom :=
  { hostId := "h", hostSocket := 5, meta := lanMetaFx "r1", members := ["c"] }

/-- Fixture state for the C2 failing input. -/
def stC2 : ServerState :=
  { clients := [(0, { clientId := "c", nickname := "", avatar := none, networkKey := "netA" })],
    clientsById := [("c", 0)],
    networkSockets := [("netA", [0])],
    lanRoomsByNetwork := [("netB", [("r1", lanRoomC2)])],
    publicRooms := [] }

/-- C2 (evaluation at the failing input): when the closing connection's
profile c is a member of a LAN room stored under a network key other than the
closing connection's own, the close handler sends nothing, and the LAN room
still holds c afterwards, because the cleanup loop re-resolves each entry of
findRoomsByMember through findRoom with the closing connection's network key
and so drops the entry's own network key. -/
theorem close_crossNetworkMembership_bug :
    "c" ∈ lanRoomC2.members ∧
    (handleClose stC2 0 "netA").2 = [] ∧
    findLanRoom (handleClose stC2 0 "netA").1 "r1" "netB" = some lanRoomC2 := by
  refine ⟨by decide, rfl, rfl⟩

theorem shareRemoveLanBranch_spec (st : ServerState) (sender : Socket) (nk rid : String) :
    ((shareRemoveLanBranch st sender nk rid).1.clients = st.clients ∧
     (shareRemoveLanBranch st sender nk rid).1.clientsById = st.clientsById ∧
     (shareRemoveLanBranch st sender nk rid).1.networkSockets = st.networkSockets ∧
     (shareRemoveLanBranch st sender nk rid).1.publicRooms = st.publicRooms) ∧
    (∀ k r, ¬(k = nk ∧ r = rid) →
      findLanRoom (shareRemoveLanBranch st sender nk rid).1 r k = findLanRoom st r k) ∧
    (∀ lroom, findLanRoom st rid nk = some lroom → lroom.hostSocket = sender →
      findLanRoom (shareRemoveLanBranch st sender nk rid).1 rid nk = none) ∧
    (∀ lroom, findLanRoom st rid nk = some lroom → lroom.hostSocket ≠ sender →
      findLanRoom (shareRemoveLanBranch st sender nk rid).1 rid nk = some lroom) := by
  cases hl : findLanRoom st rid nk with
  | none =>
    have hres : shareRemoveLanBranch st sender nk rid = (st, []) := by
      simp [shareRemoveLanBranch, hl]
    rw [hres]
    exact ⟨⟨rfl, rfl, rfl, rfl⟩, fun k r _ => rfl,
      fun lroom hl' _ => Option.noConfusion hl',
      fun lroom hl' _ => Option.noConfusion hl'⟩
  | some lroom =>
    by_cases hh : lroom.hostSocket = sender
    · have hres : shareRemoveLanBranch st sender nk rid = removeLanRoom st rid nk := by
        simp [shareRemoveLanBranch, hl, hh]
      obtain ⟨map, hmap, hroom⟩ := findLanRoom_inv st rid nk lroom hl
      have hrem : removeLanRoom st rid nk =
          ({ st with lanRoomsByNetwork := (mset st.lanRoomsByNetwork nk (mdel map rid)) },
           (lroom.members.filterMap (fun memberId =>
             (mget st.clientsById memberId).map
               (fun sock => (sock, OutMsg.roomClosed rid)))) ++
           broadcastShareList
             { st with lanRoomsByNetwork := (mset st.lanRoomsByNetwork nk (mdel map rid)) }
             nk) := by
        simp only [removeLanRoom, hmap, hroom]
      rw [hres, hrem]
      refine ⟨⟨rfl, rfl, rfl, rfl⟩, ?_, ?_, ?_⟩
      · intro k r hkr
        unfold findLanRoom
        by_cases hk : k = nk
        · subst hk
          have hr : r ≠ rid := fun hr => hkr ⟨rfl, hr⟩
          rw [show ({ st with lanRoomsByNetwork :=
                (mset st.lanRoomsByNetwork k (mdel map rid)) } :
              ServerState).lanRoomsByNetwork =
              mset st.lanRoomsByNetwork k (mdel map rid) from rfl]
          rw [mget_mset_self, hmap]
          simp only []
          exact mget_mdel_ne map rid r hr
        · rw [show ({ st with lanRoomsByNetwork :=
                (mset st.lanRoomsByNetwork nk (mdel map rid)) } :
              ServerState).lanRoomsByNetwork =
              mset st.lanRoomsByNetwork nk (mdel map rid) from rfl]
          rw [mget_mset_ne st.lanRoomsByNetwork nk k (mdel map rid) hk]
      · intro lroom' _ _
        unfold findLanRoom
        rw [show ({ st with lanRoomsByNetwork :=
              (mset st.lanRoomsByNetwork nk (mdel map rid)) } :
            ServerState).lanRoomsByNetwork =
            mset st.lanRoomsByNetwork nk (mdel map rid) from rfl]
        rw [mget_mset_self]
        simp only []
        exact mget_mdel_self map rid
      · intro lroom' hl' hh'
        injection hl' with he
        rw [← he] at hh'
        exact absurd hh hh'
    · have hres : shareRemoveLanBranch st sender nk rid = (st, []) := by
        simp [shareRemoveLanBranch, hl, hh]
      rw [hres]
      refine ⟨⟨rfl, rfl, rfl, rfl⟩, fun k r _ => rfl, ?_, ?_⟩
      · intro lroom' hl' hh'
        injection hl' with he
        rw [← he] at hh'
        exact absurd hh' hh
      · intro lroom' hl' _
        exact hl.trans hl'

/-- Fixture public room for the C4 counterexample, hosted by socket 0. -/
def roomC4 : PublicRoom :=
  { hostId := "h", hostSocket := 0, meta := pubMetaFx "r" "public", members := [] }

/-- C4 counterexample input state: the sender, socket 0, hosts a public room
with id r, and no LAN room exists anywhere. -/
def stC4 : ServerState :=
  { clients := [], clientsById := [], networkSockets := [], lanRoomsByNetwork := [],
    publicRooms := [("r", roomC4)] }

/-- C4 counterexample: a share:remove for a roomId the sender hosts as a
public room removes that public room, although the claim says share:remove
never removes or modifies any public room. -/
theorem shareRemove_removesPublic_cex :
    mhas stC4.publicRooms "r" = true ∧
    (handleShareRemove stC4 0 "net" "r").1.publicRooms = [] := by
  exact ⟨by decide, by decide⟩

/-- C4 (amended): share:remove touches no state component other than the room
stores; public rooms other than the named id and LAN rooms other than the one
under the sender's network key and the named id are untouched; when the sender
hosts a public room with the named id, that public room alone is removed and
all LAN rooms stay; otherwise, when the sender hosts the LAN room keyed by the
sender's network key and the named id, that LAN room is removed.  The removals
are also authorized-only: a public room with the named id hosted by a
connection other than the sender always survives, a missing public entry stays
missing, and the LAN room under the sender's network key survives whenever its
host is not the sender. -/
theorem shareRemove_frame (st : ServerState) (sender : Socket) (nk rid : String) :
    ((handleShareRemove st sender nk rid).1.clients = st.clients ∧
     (handleShareRemove st sender nk rid).1.clientsById = st.clientsById ∧
     (handleShareRemove st sender nk rid).1.networkSockets = st.networkSockets) ∧
    (∀ r, r ≠ rid →
      mget (handleShareRemove st sender nk rid).1.publicRooms r = mget st.publicRooms r) ∧
    (∀ k r, ¬(k = nk ∧ r = rid) →
      findLanRoom (handleShareRemove st sender nk rid).1 r k = findLanRoom st r k) ∧
    (rid ≠ "" → ∀ proom, mget st.publicRooms rid = some proom → proom.hostSocket = sender →
      mget (handleShareRemove st sender nk rid).1.publicRooms rid = none ∧
      findLanRoom (handleShareRemove st sender nk rid).1 rid nk = findLanRoom st rid nk) ∧
    (rid ≠ "" → ∀ lroom, findLanRoom st rid nk = some lroom → lroom.hostSocket = sender →
      (∀ proom, mget st.publicRooms rid = some proom → proom.hostSocket ≠ sender) →
      findLanRoom (handleShareRemove st sender nk rid).1 rid nk = none) ∧
    (∀ proom, mget st.publicRooms rid = some proom → proom.hostSocket ≠ sender →
      mget (handleShareRemove st sender nk rid).1.publicRooms rid = some proom) ∧
    (mget st.publicRooms rid = none →
      mget (handleShareRemove st sender nk rid).1.publicRooms rid = none) ∧
    (∀ lroom, findLanRoom st rid nk = some lroom → lroom.hostSocket ≠ sender →
      findLanRoom (handleShareRemove st sender nk rid).1 rid nk = some lroom) := by
  by_cases hrid : rid = ""
  · have hres : handleShareRemove st sender nk rid = (st, []) := by
      simp [handleShareRemove, hrid]
    rw [hres]
    exact ⟨⟨rfl, rfl, rfl⟩, fun r _ => rfl, fun k r _ => rfl,
      fun h => absurd hrid h, fun h => absurd hrid h,
      fun proom hp _ => hp, fun hn => hn, fun lroom hl _ => hl⟩
  · cases hp : mget st.publicRooms rid with
    | some proom =>
      by_cases hh : proom.hostSocket = sender
      · have hres : handleShareRemove st sender nk rid =
            ({ st with publicRooms := mdel st.publicRooms rid },
             proom.members.filterMap (fun memberId =>
               (mget st.clientsById memberId).map
                 (fun sock => (sock, OutMsg.roomClosed rid)))) := by
          simp only [handleShareRemove, if_neg hrid, hp, if_pos hh, removePublicRoom]
        rw [hres]
        refine ⟨⟨rfl, rfl, rfl⟩, ?_, fun k r _ => rfl, ?_, ?_, ?_, ?_, ?_⟩
        · intro r hr
          exact mget_mdel_ne st.publicRooms rid r hr
        · intro _ proom' _ _
          exact ⟨mget_mdel_self st.publicRooms rid, rfl⟩
        · intro _ lroom _ hhost hnp
          exact absurd hh (hnp proom rfl)
        · intro proom' hp' hh'
          injection hp' with he
          rw [← he] at hh'
          exact absurd hh hh'
        · intro hn
          exact Option.noConfusion hn
        · intro lroom hl8 _
          exact hl8
      · have hres : handleShareRemove st sender nk rid =
            shareRemoveLanBranch st sender nk rid := by
          simp only [handleShareRemove, if_neg hrid, hp, if_neg hh]
        rw [hres]
        obtain ⟨⟨f1, f2, f3, f4⟩, flan, fdel, fsurv⟩ :=
          shareRemoveLanBranch_spec st sender nk rid
        refine ⟨⟨f1, f2, f3⟩, ?_, flan, ?_, ?_, ?_, ?_, fsurv⟩
        · intro r _
          rw [f4]
        · intro _ proom' hp' hh'
          injection hp' with he
          rw [← he] at hh'
          exact absurd hh' hh
        · intro _ lroom hl hhost _
          exact fdel lroom hl hhost
        · intro proom' hp' _
          rw [f4, hp]
          exact hp'
        · intro hn
          exact Option.noConfusion hn
    | none =>
      have hres : handleShareRemove st sender nk rid =
          shareRemoveLanBranch st sender nk rid := by
        simp only [handleShareRemove, if_neg hrid, hp]
      rw [hres]
      obtain ⟨⟨f1, f2, f3, f4⟩, flan, fdel, fsurv⟩ :=
        shareRemoveLanBranch_spec st sender nk rid
      refine ⟨⟨f1, f2, f3⟩, ?_, flan, ?_, ?_, ?_, ?_, fsurv⟩
      · intro r _
        rw [f4]
      · intro _ proom' hp' _
        exact Option.noConfusion hp'
      · intro _ lroom hl hhost _
        exact fdel lroom hl hhost
      · intro proom' hp' _
        exact Option.noConfusion hp'
      · intro _
        rw [f4]
        exact hp

/-- Fixture LAN room for the C4 witness, hosted by socket 0. -/
def lanRoomC4w : LanRoom :=
  { hostId := "h", hostSocket := 0, meta := lanMetaFx "rL", members := [] }

/-- Fixture public room for the C4 witness, hosted by socket 9. -/
def pubRoomC4w : PublicRoom :=
  { hostId := "p", hostSocket := 9, meta := pubMetaFx "rP" "public", members := [] }

/-- Fixture state for the C4 witness: socket 0 hosts the LAN room rL under
network key net, a public room rP hosted by socket 9 also exists. -/
def stC4w : ServerState :=
  { clients := [], clientsById := [], networkSockets := [],
    lanRoomsByNetwork := [("net", [("rL", lanRoomC4w)])],
    publicRooms := [("rP", pubRoomC4w)] }

/-- Witness for C4: at the fixture, a share:remove of rL from its LAN host,
socket 0, removes exactly that LAN room and leaves the public room rP in
place, while the same share:remove from the non-host socket 8 leaves the LAN
room alive. -/
theorem shareRemove_frame_witness :
    (mget (handleShareRemove stC4w 0 "net" "rL").1.publicRooms "rP" =
      mget stC4w.publicRooms "rP" ∧
     findLanRoom (handleShareRemove stC4w 0 "net" "rL").1 "rL" "net" = none) ∧
    findLanRoom (handleShareRemove stC4w 8 "net" "rL").1 "rL" "net" = some lanRoomC4w := by
  constructor
  · obtain ⟨_, fpub, _, _, fdel, _, _, _⟩ := shareRemove_frame stC4w 0 "net" "rL"
    refine ⟨fpub "rP" (by decide), ?_⟩
    refine fdel (by decide) lanRoomC4w rfl rfl ?_
    intro proom hp
    rw [show mget stC4w.publicRooms "rL" = (none : Option PublicRoom) from rfl] at hp
    exact Option.noConfusion hp
  · obtain ⟨_, _, _, _, _, _, _, fsurv⟩ := shareRemove_frame stC4w 8 "net" "rL"
    exact fsurv lanRoomC4w rfl (by decide)

theorem headMatches_self : ∀ l : List Char, headMatches l l = true := by
  intro l
  induction l with
  | nil => rfl
  | cons c rest ih => simp [headMatches, ih]

theorem strIncludes_self (s : String) : strIncludes s s = true := by
  unfold strIncludes hasSub
  cases s.toList with
  | nil => rfl
  | cons c rest => simp [headMatches_self]

theorem roomListFilter_iff (query : String) (room : PublicRoom) :
    roomListFilter query room = true ↔
      (if query = "" then room.meta.visibility ≠ "private"
       else strIncludes room.meta.roomId query = true ∧
         (room.meta.visibility ≠ "private" ∨ room.meta.roomId = query)) := by
  unfold roomListFilter
  by_cases hq : query = ""
  · simp [hq]
  · simp only [if_neg hq]
    by_cases hinc : strIncludes room.meta.roomId query = true
    · by_cases hvis : room.meta.visibility = "private"
      · by_cases heq : room.meta.roomId = query
        · simp [hinc, hvis, heq, strIncludes_self]
        · simp [hinc, hvis, heq]
      · simp [hinc, hvis]
    · by_cases heq : room.meta.roomId = query
      · exact (hinc (by rw [heq]; exact strIncludes_self query)).elim
      · simp [hinc, heq]

/-- Fixture public room for the C1 counterexample: public visibility, id made
of ones. -/
def roomC1 : PublicRoom :=
  { hostId := "h", hostSocket := 3, meta := pubMetaFx "1111111111111111" "public",
    members := [] }

/-- Fixture state for the C1 counterexample. -/
def stC1 : ServerState :=
  { clients := [], clientsById := [], networkSockets := [], lanRoomsByNetwork := [],
    publicRooms := [("1111111111111111", roomC1)] }

/-- C1 counterexample: with the query 2, which matches no roomId, the reply
omits the live public-visibility room, although the claim says rooms of
public visibility are returned unconditionally whether or not the query
matches. -/
theorem roomList_publicNotUnconditional_cex :
    roomC1.meta.visibility = "public" ∧
    mget stC1.publicRooms "1111111111111111" = some roomC1 ∧
    handleRoomList stC1 0 (some "2") = [(0, OutMsg.roomList [] "2")] :=
  ⟨by decide, by decide, by decide⟩

/-- C1 (amended): the room:list reply is one message to the sender echoing the
trimmed query; with an empty trimmed query it lists exactly the rooms whose
visibility is not private; with a non-empty trimmed query a room is listed
exactly when its roomId contains the query as a substring and, additionally
for a private room, equals the query exactly. -/
theorem roomList_query_characterization (st : ServerState) (sender : Socket)
    (rawQuery : Option String) :
    ∃ rooms query,
      handleRoomList st sender rawQuery = [(sender, OutMsg.roomList rooms query)] ∧
      query = (match rawQuery with | some q => strTrim q | none => "") ∧
      (∀ s, s ∈ rooms ↔ ∃ p ∈ st.publicRooms, s = summaryOf p.2 ∧
        (if query = "" then p.2.meta.visibility ≠ "private"
         else strIncludes p.2.meta.roomId query = true ∧
           (p.2.meta.visibility ≠ "private" ∨ p.2.meta.roomId = query))) := by
  refine ⟨((st.publicRooms.map (fun p => p.2)).filter
      (roomListFilter (match rawQuery with | some q => strTrim q | none => ""))).map summaryOf,
    (match rawQuery with | some q => strTrim q | none => ""), rfl, rfl, ?_⟩
  intro s
  constructor
  · intro hs
    obtain ⟨room, hroom, rfl⟩ := List.mem_map.mp hs
    obtain ⟨hmem, hfilt⟩ := List.mem_filter.mp hroom
    obtain ⟨p, hp, rfl⟩ := List.mem_map.mp hmem
    exact ⟨p, hp, rfl, (roomListFilter_iff _ _).mp hfilt⟩
  · rintro ⟨p, hp, rfl, hcond⟩
    exact List.mem_map.mpr ⟨p.2, List.mem_filter.mpr
      ⟨List.mem_map.mpr ⟨p, hp, rfl⟩, (roomListFilter_iff _ _).mpr hcond⟩, rfl⟩

/-- Fixture configuration with key-gating enabled and an empty key set. -/
def cfgC3 : Config := { requireApiKey := true, apiKeys := [], maxRooms := 100 }

/-- Fixture room:create message with no api key supplied. -/
def msgC3 : RoomCreateMsg :=
  { clientId := "a", apiKey := none, name := "", requiresPassword := false,
    permission := none, visibility := none, appVersion := "" }

/-- C3 counterexample: with key-gating on and no api key supplied, a
room:create from an unregistered connection is dropped silently: no room is
created, but no room:error frame is sent either, although the claim demands
the error frame on every connection regardless of registration state. -/
theorem roomCreate_unregisteredNoError_cex :
    handleRoomCreate cfgC3 emptyState 0 msgC3 [] 0 = (emptyState, []) := rfl

/-- C3 (amended): with key-gating enabled and the supplied key absent, blank
after trimming, or not in the key set, room:create never changes the state;
the room:error reply with reason api_key_required is sent exactly when the
sending connection holds a registered profile whose clientId matches the
message, and nothing is sent otherwise. -/
theorem roomCreate_apiKeyGate (cfg : Config) (st : ServerState) (sender : Socket)
    (msg : RoomCreateMsg) (draws : List (List Nat)) (now : Nat)
    (hreq : cfg.requireApiKey = true)
    (hkey : suppliedApiKey msg = "" ∨ suppliedApiKey msg ∉ cfg.apiKeys) :
    (handleRoomCreate cfg st sender msg draws now).1 = st ∧
    (∀ record, mget st.clients sender = some record → record.clientId = msg.clientId →
      (handleRoomCreate cfg st sender msg draws now).2 =
        [(sender, OutMsg.roomError "api_key_required" "API key required")]) ∧
    ((∀ record, mget st.clients sender = some record → record.clientId ≠ msg.clientId) →
      (handleRoomCreate cfg st sender msg draws now).2 = []) := by
  cases hc : mget st.clients sender with
  | none =>
    have hres : handleRoomCreate cfg st sender msg draws now = (st, []) := by
      simp only [handleRoomCreate, hc]
    rw [hres]
    exact ⟨rfl, fun record hr _ => Option.noConfusion hr, fun _ => rfl⟩
  | some record =>
    by_cases hcid : record.clientId = msg.clientId
    · have hne : ¬(record.clientId ≠ msg.clientId) := fun h => h hcid
      have hres : handleRoomCreate cfg st sender msg draws now =
          (st, [(sender, OutMsg.roomError "api_key_required" "API key required")]) := by
        simp only [handleRoomCreate, hc, if_neg hne, if_pos (And.intro hreq hkey)]
      rw [hres]
      refine ⟨rfl, fun _ _ _ => rfl, ?_⟩
      intro hall
      exact (hall record rfl hcid).elim
    · have hres : handleRoomCreate cfg st sender msg draws now = (st, []) := by
        simp only [handleRoomCreate, hc, if_pos hcid]
      rw [hres]
      refine ⟨rfl, ?_, fun _ => rfl⟩
      intro record' hr' heq'
      injection hr' with he
      rw [← he] at heq'
      exact (hcid heq').elim

/-- Fixture profile for the C3 witness. -/
def profileC3 : ClientProfile :=
  { clientId := "a", nickname := "", avatar := none, networkKey := "net" }

/-- Fixture state for the C3 witness: socket 0 is registered as client a. -/
def stC3w : ServerState :=
  { clients := [(0, profileC3)], clientsById := [("a", 0)], networkSockets := [],
    lanRoomsByNetwork := [], publicRooms := [] }

/-- Witness for C3: a registered caller with no api key gets the error frame
and the state is unchanged. -/
theorem roomCreate_apiKeyGate_witness :
    (handleRoomCreate cfgC3 stC3w 0 msgC3 [] 0).1 = stC3w ∧
    (handleRoomCreate cfgC3 stC3w 0 msgC3 [] 0).2 =
      [(0, OutMsg.roomError "api_key_required" "API key required")] := by
  obtain ⟨h1, h2, _⟩ := roomCreate_apiKeyGate cfgC3 stC3w 0 msgC3 [] 0 rfl (Or.inl rfl)
  exact ⟨h1, h2 profileC3 rfl rfl⟩

/-- Fixture public room for C6: hosted by socket 0, no members at all. -/
def roomC6 : PublicRoom :=
  { hostId := "h", hostSocket := 0, meta := pubMetaFx "r" "public", members := [] }

/-- Fixture state for C6: client b is registered on socket 1 but is not a
member of the room. -/
def stC6 : ServerState :=
  { clients := [], clientsById := [("b", 1)], networkSockets := [],
    lanRoomsByNetwork := [], publicRooms := [("r", roomC6)] }

/-- C6 counterexample: the host targets client b, who is registered but not a
member of the room, and b receives the payload anyway, although the claim says
a targetId outside the member set is never delivered to. -/
theorem roomMessage_nonMemberTarget_cex :
    "b" ∉ roomC6.members ∧
    handleRoomMessage stC6 0 "nk" "r" (some "b") "p" = [(1, OutMsg.roomMessage "r" "p")] :=
  ⟨by decide, by decide⟩

/-- C6 (amended): a room:message from the host with a non-empty targetId is
delivered to the connection registered for that targetId regardless of
membership, and to nobody else; it is dropped when the targetId is not
registered. -/
theorem roomMessage_targeted (st : ServerState) (sender : Socket)
    (nk roomId payload tid : String) (hrid : roomId ≠ "") (htid : tid ≠ "")
    (r : Resolved) (hres : findRoom st roomId nk = some r) (hhost : r.hostSocket = sender) :
    (∀ s, mget st.clientsById tid = some s →
      handleRoomMessage st sender nk roomId (some tid) payload =
        [(s, OutMsg.roomMessage roomId payload)]) ∧
    (mget st.clientsById tid = none →
      handleRoomMessage st sender nk roomId (some tid) payload = []) := by
  have hnh : ¬(r.hostSocket ≠ sender) := fun h => h hhost
  constructor
  · intro s hs
    unfold handleRoomMessage
    rw [if_neg hrid]
    simp only [hres, if_neg hnh, if_neg htid, hs]
  · intro hn
    unfold handleRoomMessage
    rw [if_neg hrid]
    simp only [hres, if_neg hnh, if_neg htid, hn]

/-- Witness for C6 at the concrete fixture: the registered non-member b on
socket 1 receives the payload. -/
theorem roomMessage_targeted_witness :
    handleRoomMessage stC6 0 "nk" "r" (some "b") "pay" = [(1, OutMsg.roomMessage "r" "pay")] := by
  obtain ⟨h1, _⟩ := roomMessage_targeted stC6 0 "nk" "r" "pay" "b" (by decide) (by decide)
    (Resolved.pub roomC6) rfl rfl
  exact h1 1 rfl

theorem digitChar_isDigit (m : Nat) (h : m < 10) : (Nat.digitChar m).isDigit = true := by
  interval_cases m <;> decide

theorem toDigitsCore_digits (fuel : Nat) : ∀ (n : Nat) (ds : List Char),
    (∀ c ∈ ds, c.isDigit = true) →
    ∀ c ∈ Nat.toDigitsCore 10 fuel n ds, c.isDigit = true := by
  induction fuel with
  | zero => intro n ds hds c hc; exact hds c (by simpa [Nat.toDigitsCore] using hc)
  | succ f ih =>
    intro n ds hds c hc
    simp only [Nat.toDigitsCore] at hc
    have hcons : ∀ c' ∈ Nat.digitChar (n % 10) :: ds, c'.isDigit = true := by
      intro c' hc'
      rcases List.mem_cons.mp hc' with h | h
      · rw [h]; exact digitChar_isDigit _ (Nat.mod_lt n (by norm_num))
      · exact hds c' h
    by_cases h0 : n / 10 = 0
    · rw [if_pos h0] at hc
      exact hcons c hc
    · rw [if_neg h0] at hc
      exact ih (n / 10) (Nat.digitChar (n % 10) :: ds) hcons c hc

theorem repr_digits (n : Nat) : ∀ c ∈ (toString n).toList, c.isDigit = true := by
  intro c hc
  exact toDigitsCore_digits (n + 1) n [] (by intro c' hc'; cases hc') c hc

theorem toString_lt10_len (m : Nat) (h : m < 10) :
    (toString m).toList.length = 1 ∧ ∀ c ∈ (toString m).toList, c.isDigit = true := by
  interval_cases m <;> exact ⟨by decide, by decide⟩

theorem data_append (a b : String) : (a ++ b).data = a.data ++ b.data := rfl

theorem foldl_append_data (l : List String) (acc : String) :
    (l.foldl (fun r s => r ++ s) acc).data = acc.data ++ (l.map String.data).flatten := by
  induction l generalizing acc with
  | nil => simp
  | cons s rest ih => simp [List.foldl_cons, ih, data_append, List.append_assoc]

theorem join_data (l : List String) : (String.join l).data = (l.map String.data).flatten := by
  have h := foldl_append_data l ""
  simpa [String.join] using h

theorem digitsOfBytes_spec (bytes : List Nat) :
    (digitsOfBytes bytes).toList.length = bytes.length ∧
    ∀ c ∈ (digitsOfBytes bytes).toList, c.isDigit = true := by
  constructor
  · show (digitsOfBytes bytes).data.length = bytes.length
    unfold digitsOfBytes
    rw [join_data, List.length_flatten]
    have hmap : (((bytes.map (fun b => toString (b % 10))).map String.data).map
        List.length) = bytes.map (fun _ => 1) := by
      rw [List.map_map, List.map_map]
      apply List.map_congr_left
      intro b _
      exact (toString_lt10_len (b % 10) (Nat.mod_lt b (by norm_num))).1
    rw [hmap]
    simp
  · intro c hc
    have hc' : c ∈ (digitsOfBytes bytes).data := hc
    unfold digitsOfBytes at hc'
    rw [join_data] at hc'
    obtain ⟨piece, hpiece, hcp⟩ := List.mem_flatten.mp hc'
    obtain ⟨s, hs, rfl⟩ := List.mem_map.mp hpiece
    obtain ⟨b, _, rfl⟩ := List.mem_map.mp hs
    exact (toString_lt10_len (b % 10) (Nat.mod_lt b (by norm_num))).2 c hcp

theorem timestampFallback_spec (now : Nat) :
    (timestampFallback now).toList.length = 16 ∧
    ∀ c ∈ (timestampFallback now).toList, c.isDigit = true := by
  constructor
  · show (List.replicate
        (ROOM_ID_LENGTH - ((toString now).toList.drop
          ((toString now).toList.length - ROOM_ID_LENGTH)).length) '0' ++
        (toString now).toList.drop
          ((toString now).toList.length - ROOM_ID_LENGTH)).length = 16
    rw [List.length_append, List.length_replicate, List.length_drop]
    simp only [ROOM_ID_LENGTH]
    omega
  · intro c hc
    have hc' : c ∈ List.replicate
        (ROOM_ID_LENGTH - ((toString now).toList.drop
          ((toString now).toList.length - ROOM_ID_LENGTH)).length) '0' ++
        (toString now).toList.drop
          ((toString now).toList.length - ROOM_ID_LENGTH) := hc
    rcases List.mem_append.mp hc' with h | h
    · rw [List.eq_of_mem_replicate h]; decide
    · exact repr_digits now c (List.drop_subset _ _ h)

theorem generateRoomIdAux_spec (pr : List (String × PublicRoom)) (now : Nat)
    (ds : List (List Nat)) (hlen : ∀ d ∈ ds, d.length = ROOM_ID_LENGTH) :
    ((generateRoomIdAux pr now ds).toList.length = 16 ∧
     ∀ c ∈ (generateRoomIdAux pr now ds).toList, c.isDigit = true) ∧
    (mhas pr (generateRoomIdAux pr now ds) = true →
      generateRoomIdAux pr now ds = timestampFallback now) := by
  induction ds with
  | nil => exact ⟨timestampFallback_spec now, fun _ => rfl⟩
  | cons bytes rest ih =>
    simp only [generateRoomIdAux]
    by_cases hh : mhas pr (digitsOfBytes bytes) = true
    · rw [if_pos hh]
      exact ih (fun d hd => hlen d (List.mem_cons_of_mem _ hd))
    · rw [if_neg hh]
      have hb : bytes.length = ROOM_ID_LENGTH := hlen bytes (List.mem_cons_self _ _)
      refine ⟨⟨?_, (digitsOfBytes_spec bytes).2⟩, fun habs => (hh habs).elim⟩
      rw [(digitsOfBytes_spec bytes).1, hb]
      rfl

/-- C7 (amended): every roomId produced by generateRoomId from 16-byte draws
is a string of exactly 16 decimal digits; when the produced id is still among
the live public room ids, it is necessarily the timestamp fallback of the 8th
failed attempt — an id returned from a random draw never collides, but the
fallback performs no uniqueness re-check and can collide. -/
theorem generateRoomId_digits_unique (pr : List (String × PublicRoom))
    (draws : List (List Nat)) (now : Nat)
    (hlen : ∀ d ∈ draws, d.length = ROOM_ID_LENGTH) :
    ((generateRoomId pr draws now).toList.length = 16 ∧
     ∀ c ∈ (generateRoomId pr draws now).toList, c.isDigit = true) ∧
    (mhas pr (generateRoomId pr draws now) = true →
      generateRoomId pr draws now = timestampFallback now) := by
  unfold generateRoomId
  exact generateRoomIdAux_spec pr now (draws.take ROOM_ID_ATTEMPTS)
    (fun d hd => hlen d (List.take_subset _ _ hd))

/-- Fixture public room for the C7 counterexample, with the all-zero id. -/
def roomC7 : PublicRoom :=
  { hostId := "h", hostSocket := 0, meta := pubMetaFx "0000000000000000" "public",
    members := [] }

/-- Live public rooms for the C7 counterexample. -/
def prC7 : List (String × PublicRoom) := [("0000000000000000", roomC7)]

/-- Eight colliding draws of 16 zero bytes each. -/
def drawsC7 : List (List Nat) := List.replicate 8 (List.replicate 16 0)

/-- C7 counterexample: all eight 16-byte draws collide with the live all-zero
room id and the timestamp fallback for time 0 is that same all-zero string,
so the produced roomId equals a currently-live public room's id, although the
claim says the produced id always differs from every live room id, the
fallback case included. -/
theorem generateRoomId_fallbackCollision_cex :
    (∀ d ∈ drawsC7, d.length = ROOM_ID_LENGTH) ∧
    mhas prC7 (generateRoomId prC7 drawsC7 0) = true :=
  ⟨by decide, by decide⟩

/-- Single fresh 16-byte draw for the C7 witness. -/
def drawsC7w : List (List Nat) := [List.replicate 16 3]

/-- Witness for C7 at a concrete non-colliding draw. -/
theorem generateRoomId_digits_unique_witness :
    ((generateRoomId prC7 drawsC7w 123).toList.length = 16 ∧
     ∀ c ∈ (generateRoomId prC7 drawsC7w 123).toList, c.isDigit = true) ∧
    (mhas prC7 (generateRoomId prC7 drawsC7w 123) = true →
      generateRoomId prC7 drawsC7w 123 = timestampFallback 123) :=
  generateRoomId_digits_unique prC7 drawsC7w 123 (by decide)
